import Mathlib

/-!
Verification of the OZI `ozi/fix.py` reconciliation and command-synthesis
engine against its design description.  The Python module is shallowly
embedded: the filesystem is a finite state record, the `RewriteCommand`
dataclass and the `Rewriter` batcher become structures with explicit state
passing, exceptions become `Except`, and `warnings.warn` calls are collected
into a list.
-/

namespace OziFix

/-- Decidable equality for `Except` results, used to evaluate the model at
concrete inputs. -/
instance {ε α : Type _} [DecidableEq ε] [DecidableEq α] :
    DecidableEq (Except ε α) := fun x y =>
  match x, y with
  | Except.ok a, Except.ok b =>
    if h : a = b then isTrue (by rw [h])
    else isFalse (fun hh => h (Except.ok.inj hh))
  | Except.error a, Except.error b =>
    if h : a = b then isTrue (by rw [h])
    else isFalse (fun hh => h (Except.error.inj hh))
  | Except.ok _, Except.error _ => isFalse (fun hh => Except.noConfusion hh)
  | Except.error _, Except.ok _ => isFalse (fun hh => Except.noConfusion hh)

/-- Path join as performed by `pathlib.Path(a, b)` for simple relative parts. -/
def pjoin (a b : String) : String := a ++ "/" ++ b

/-- Model of the local filesystem consulted and mutated by the rewriter:
`dirs` lists the existing directory paths, `files` the existing regular-file
paths, and `withEntries` the directories that currently contain at least one
entry (so `rmdir` on them fails). -/
structure FS where
  dirs : List String := []
  files : List String := []
  withEntries : List String := []
deriving Repr, DecidableEq

/-- `Path.is_dir`. -/
def FS.isDir (fs : FS) (p : String) : Bool := decide (p ∈ fs.dirs)

/-- `Path.is_file`. -/
def FS.isFile (fs : FS) (p : String) : Bool := decide (p ∈ fs.files)

/-- `Path.rmdir`: succeeds exactly on an existing empty directory; any other
case raises an `OSError` (`FileNotFoundError`, `NotADirectoryError`, or the
non-empty-directory `OSError`). -/
def FS.rmdir (fs : FS) (p : String) : Except String FS :=
  if fs.isDir p && !(decide (p ∈ fs.withEntries)) then
    Except.ok { fs with dirs := fs.dirs.filter (fun q => decide (q ≠ p)) }
  else
    Except.error "OSError"

/-- `Path.mkdir()` with the default `exist_ok=False`: raises
`FileExistsError` when the path already exists. -/
def FS.mkdir (fs : FS) (p : String) : Except String FS :=
  if fs.isDir p || fs.isFile p then Except.error "FileExistsError"
  else Except.ok { fs with dirs := fs.dirs ++ [p] }

/-- `Path.touch` followed by writing the rendered template text: the path
becomes a regular file. -/
def FS.write (fs : FS) (p : String) : FS :=
  if fs.isFile p then fs else { fs with files := fs.files ++ [p] }

/-- Meson rewriter command input (the `RewriteCommand` dataclass). -/
structure RewriteCommand where
  active : Bool := false
  type : String := "target"
  target : String := ""
  operation : String := ""
  sources : List String := []
  subdir : String := ""
  target_type : String := ""
deriving Repr, DecidableEq

/-- The body of the add/rem functions: marks the instance active and binds
the target identifier `mode_kind`, raising `ValueError` when a different
target is already bound.  The Python method returns `asdict(self)`; the
mutated state carries the same information, so the model returns the state
both as the first component (the object after the call, kept even when the
error is raised) and inside the `Except` result. -/
def RewriteCommand._body (c : RewriteCommand) (mode kind : String) :
    RewriteCommand × Except String RewriteCommand :=
  let c1 := { c with active := true }
  let tgt := mode ++ "_" ++ kind
  if c1.target = tgt ∨ c1.target = "" then
    let c2 := { c1 with target := tgt }
    (c2, Except.ok c2)
  else
    (c1, Except.error ("target already set to " ++ c1.target))

/-- `RewriteCommand.add`: append the source, set the operation tag, then run
the shared body. -/
def RewriteCommand.add (c : RewriteCommand) (mode kind source : String) :
    RewriteCommand × Except String RewriteCommand :=
  RewriteCommand._body
    { c with sources := c.sources ++ [source], operation := "src_add" } mode kind

/-- `RewriteCommand.rem`: append the source, set the operation tag, then run
the shared body. -/
def RewriteCommand.rem (c : RewriteCommand) (mode kind source : String) :
    RewriteCommand × Except String RewriteCommand :=
  RewriteCommand._body
    { c with sources := c.sources ++ [source], operation := "src_rem" } mode kind

/-- The record appended to `Rewriter.commands`: `asdict` minus the `active`
field. -/
structure CmdRecord where
  type : String
  target : String
  operation : String
  sources : List String
  subdir : String
  target_type : String
deriving Repr, DecidableEq

/-- Drop the `active` field, keeping everything else. -/
def RewriteCommand.toRecord (c : RewriteCommand) : CmdRecord :=
  ⟨c.type, c.target, c.operation, c.sources, c.subdir, c.target_type⟩

/-- Container for Meson rewriter commands (the `Rewriter` dataclass). -/
structure Rewriter where
  target : String
  name : String
  fix : String
  commands : List CmdRecord := []
deriving Repr, DecidableEq

/-- Resolution of a requested relative path against the target directory,
depending on the category: `source` resolves under the package directory,
`test` under `tests`, anything else directly under the target. -/
def Rewriter.childPath (r : Rewriter) (file : String) : String :=
  if r.fix = "source" then pjoin (pjoin r.target r.name) file
  else if r.fix = "test" then pjoin (pjoin r.target "tests") file
  else pjoin r.target file

/-- One iteration of the loop in `Rewriter.__iadd__` for one requested path:
on an existing directory, `mkdir` it (which raises `FileExistsError`, since
`exist_ok` is not passed), write the build stub and route it to the children
builder; on an existing file, route the relative path to the files builder;
otherwise do nothing. -/
def Rewriter.iaddStep (r : Rewriter) (fs : FS) (cf cc : RewriteCommand)
    (file : String) : Except String (FS × RewriteCommand × RewriteCommand) :=
  let child := r.childPath file
  if fs.isDir child then
    match fs.mkdir child with
    | Except.error e => Except.error e
    | Except.ok fs1 =>
      let fs2 := fs1.write (pjoin child "meson.build")
      match cc.add r.fix "children" (pjoin child "meson.build") with
      | (cc1, Except.ok _) => Except.ok (fs2, cf, cc1)
      | (_, Except.error e) => Except.error e
  else if fs.isFile child then
    match cf.add r.fix "files" file with
    | (cf1, Except.ok _) => Except.ok (fs, cf1, cc)
    | (_, Except.error e) => Except.error e
  else
    Except.ok (fs, cf, cc)

/-- The `for file in other` loop of `Rewriter.__iadd__`. -/
def Rewriter.iaddLoop (r : Rewriter) :
    List String → FS → RewriteCommand → RewriteCommand →
    Except String (FS × RewriteCommand × RewriteCommand)
  | [], fs, cf, cc => Except.ok (fs, cf, cc)
  | f :: rest, fs, cf, cc =>
    match r.iaddStep fs cf cc f with
    | Except.ok (fs1, cf1, cc1) => r.iaddLoop rest fs1 cf1 cc1
    | Except.error e => Except.error e

/-- `Rewriter.__iadd__`: process the path list with two fresh builders, then
append the files command (when active) followed by the children command (when
active) to the batch. -/
def Rewriter.iadd (r : Rewriter) (fs : FS) (other : List String) :
    Except String (FS × Rewriter) :=
  match r.iaddLoop other fs {} {} with
  | Except.error e => Except.error e
  | Except.ok (fs1, cf, cc) =>
    let appended := (if cf.active then [cf.toRecord] else []) ++
      (if cc.active then [cc.toRecord] else [])
    Except.ok (fs1, { r with commands := r.commands ++ appended })

/-- Routing tail of one `__isub__` iteration: files-versus-children checked
against the (post-`rmdir`) filesystem. -/
def Rewriter.isubRoute (r : Rewriter) (cf cc : RewriteCommand) (file : String)
    (fs : FS) (child : String) (warns : List String) :
    Except String (FS × RewriteCommand × RewriteCommand × List String) :=
  if fs.isDir child then
    match cc.rem r.fix "children" (pjoin child "meson.build") with
    | (cc1, Except.ok _) => Except.ok (fs, cf, cc1, warns)
    | (_, Except.error e) => Except.error e
  else if fs.isFile child then
    match cf.rem r.fix "files" file with
    | (cf1, Except.ok _) => Except.ok (fs, cf1, cc, warns)
    | (_, Except.error e) => Except.error e
  else Except.ok (fs, cf, cc, warns)

/-- One iteration of the loop in `Rewriter.__isub__` for one requested path:
the category-specific `rmdir` attempt (collecting the `RuntimeWarning` text
when the attempt raises `OSError`), then files-versus-children routing
checked against the post-`rmdir` filesystem.  For the `test` category the
`rmdir` is attempted at `target/name/file` while the routing uses
`target/tests/file`, exactly as in the source. -/
def Rewriter.isubStep (r : Rewriter) (fs : FS) (cf cc : RewriteCommand)
    (warns : List String) (file : String) :
    Except String (FS × RewriteCommand × RewriteCommand × List String) :=
  if r.fix = "source" then
    let child := pjoin (pjoin r.target r.name) file
    match fs.rmdir (pjoin (pjoin r.target r.name) file) with
    | Except.ok fs1 => r.isubRoute cf cc file fs1 child warns
    | Except.error _ =>
      r.isubRoute cf cc file fs child
        (warns ++ ["not ok - Could not remove non-empty source directory."])
  else if r.fix = "test" then
    let child := pjoin (pjoin r.target "tests") file
    match fs.rmdir (pjoin (pjoin r.target r.name) file) with
    | Except.ok fs1 => r.isubRoute cf cc file fs1 child warns
    | Except.error _ =>
      r.isubRoute cf cc file fs child
        (warns ++ ["not ok - Could not remove non-empty test directory."])
  else
    r.isubRoute cf cc file fs (pjoin r.target file) warns

/-- The `for file in other` loop of `Rewriter.__isub__`. -/
def Rewriter.isubLoop (r : Rewriter) :
    List String → FS → RewriteCommand → RewriteCommand → List String →
    Except String (FS × RewriteCommand × RewriteCommand × List String)
  | [], fs, cf, cc, warns => Except.ok (fs, cf, cc, warns)
  | f :: rest, fs, cf, cc, warns =>
    match r.isubStep fs cf cc warns f with
    | Except.ok (fs1, cf1, cc1, warns1) => r.isubLoop rest fs1 cf1 cc1 warns1
    | Except.error e => Except.error e

/-- `Rewriter.__isub__`: process the path list with two fresh builders, then
append the files command (when active) followed by the children command (when
active) to the batch; the collected warnings are returned alongside. -/
def Rewriter.isub (r : Rewriter) (fs : FS) (other : List String) :
    Except String (FS × Rewriter × List String) :=
  match r.isubLoop other fs {} {} [] with
  | Except.error e => Except.error e
  | Except.ok (fs1, cf, cc, warns) =>
    let appended := (if cf.active then [cf.toRecord] else []) ++
      (if cc.active then [cc.toRecord] else [])
    Except.ok (fs1, { r with commands := r.commands ++ appended }, warns)

/-- The two classifier keys accepted by the `pep639` grammar. -/
inductive PepKey
  | licenseExpression
  | licenseFile
deriving Repr, DecidableEq

/-- The literal keyword text of a classifier key. -/
def PepKey.str : PepKey → String
  | .licenseExpression => "License-Expression"
  | .licenseFile => "License-File"

/-- One indented `Classifier:` line of the embedded block, already split into
its key keyword and value text. -/
structure PepEntry where
  key : PepKey
  value : String
deriving Repr, DecidableEq

/-- Whether one classifier line matches the grammar alternatives:
`License-Expression :: <spdx expression>` or
`License-File :: LICENSE | LICENSE.txt`.  The SPDX license-expression
sub-grammar (`spdx_license_expression` from `ozi.assets`, outside the
analysed sources) is abstracted as the predicate `spdxOk` on value strings. -/
def entryOk (spdxOk : String → Bool) (e : PepEntry) : Bool :=
  match e.key with
  | PepKey.licenseExpression => spdxOk e.value
  | PepKey.licenseFile => e.value == "LICENSE" || e.value == "LICENSE.txt"

/-- Structural form of a PKG-INFO payload as seen by the `pep639` grammar:
whether the `.. OZI` marker line is present, and the list of consecutive
correctly indented classifier lines that follow it. -/
structure PepPayload where
  marker : Bool
  entries : List PepEntry
deriving Repr, DecidableEq

/-- Python dict union `d1 | d2`: the keys of `d1` in order with values
overridden by `d2` where the key recurs, then the keys only in `d2` in their
own order. -/
def dictUnion (d1 d2 : List (String × String)) : List (String × String) :=
  d1.map (fun kv =>
    match d2.find? (fun kv2 => kv2.1 == kv.1) with
    | some kv2 => (kv.1, kv2.2)
    | none => kv) ++
  d2.filter (fun kv2 => !(d1.any (fun kv => kv.1 == kv2.1)))

/-- `pep639_parse` applied to a payload: the marker and at least one
well-formed classifier line are required, otherwise a `ParseException` is
raised; each matched line yields via its inner parse action a singleton dict and
the suppressed pieces contribute nothing. -/
def pep639_parse (spdxOk : String → Bool) (p : PepPayload) :
    Except String (List (List (String × String))) :=
  if p.marker && !p.entries.isEmpty && p.entries.all (entryOk spdxOk) then
    Except.ok (p.entries.map (fun e => [(e.key.str, e.value)]))
  else
    Except.error "ParseException"

/-- `_str_dict_union`: the parse-time union of the matched dicts, written
`toks[0] | toks[1]`, so only the first two dicts are merged and fewer than
two tokens raises `IndexError`. -/
def _str_dict_union (toks : List (List (String × String))) :
    Except String (List (String × String)) :=
  match toks with
  | d0 :: d1 :: _ => Except.ok (dictUnion d0 d1)
  | _ => Except.error "IndexError"

/-- `pkg_info_extra`: parse the payload (the `set_parse_action()` call in the
source clears the empty action list of the top-level expression, a no-op, so
`_str_dict_union` still runs on the inner expression), then return either the
raw mapping or, as a message, the synthesized `<Key> :: <Value>` classifier
header lines built from it. -/
def pkg_info_extra (spdxOk : String → Bool) (payload : PepPayload)
    (as_message : Bool) :
    Except String (List (String × String) ⊕ List String) :=
  match pep639_parse spdxOk payload with
  | Except.error e => Except.error e
  | Except.ok toks =>
    match _str_dict_union toks with
    | Except.error e => Except.error e
    | Except.ok d =>
      if as_message then
        Except.ok (Sum.inr (d.map (fun kv => kv.1 ++ " :: " ++ kv.2)))
      else
        Except.ok (Sum.inl d)

/-- Decode one serialized `<Key> :: <Value>` classifier line back into a
structural entry; the key must be one of the two grammar keywords. -/
def entryOfPair (kv : String × String) : Option PepEntry :=
  if kv.1 == "License-Expression" then some ⟨PepKey.licenseExpression, kv.2⟩
  else if kv.1 == "License-File" then some ⟨PepKey.licenseFile, kv.2⟩
  else none

/-- Re-embed a serialized mapping as a payload: the marker line plus one
classifier line per key/value pair, in mapping order. -/
def reparse_payload (d : List (String × String)) : PepPayload :=
  ⟨true, d.filterMap entryOfPair⟩

/-- TAP-free outcome of `report_missing`: `bailOut` is the missing-`Name`
`exit(1)`; `tapPlan plan miss` is the TAP branch printing `1..plan` and
exiting with the missing-file count; `result` is the returned tuple minus the
raw message object. -/
inductive ReportOut
  | bailOut
  | tapPlan (plan : Nat) (miss : Nat)
  | result (name : String) (found_root found_source found_tests : List String)
deriving Repr, DecidableEq

/-- State of one target project directory as consulted by `report_missing`:
the PKG-INFO headers when that file exists, the structural payload, and for
each category base directory its entries as `(name, is regular file)` pairs,
`none` when the base directory itself is missing. -/
structure Project where
  pkg_info : Option (List (String × String))
  payload : PepPayload
  rootEntries : List (String × Bool)
  sourceEntries : Option (List (String × Bool))
  testEntries : Option (List (String × Bool))

/-- Files of `expected` whose resolved path exists (`Path.exists`, so both
plain files and directories count); when the base directory is missing
nothing under it exists. -/
def found_files (expected : List String)
    (entries : Option (List (String × Bool))) : List String :=
  expected.filter (fun f => (entries.getD []).any (fun e => e.1 == f))

/-- Names of the regular files in a directory listing (`os.listdir` filtered
by `os.path.isfile`). -/
def disk_files (entries : List (String × Bool)) : List String :=
  (entries.filter (fun e => e.2)).map (fun e => e.1)

/-- The per-category `extra` computation:
`list(set(disk).symmetric_difference(set(found)))`, kept as the underlying
finite set since the Python list order over a set is unspecified. -/
def extra_files (entries : List (String × Bool)) (found : List String) :
    Finset String :=
  symmDiff (disk_files entries).toFinset found.toFinset

/-- The spec description of `extra`: the elements in the union of the
on-disk regular files and the found files but not in their intersection. -/
def specExtra (entries : List (String × Bool)) (found : List String) :
    Finset String :=
  ((disk_files entries).toFinset ∪ found.toFinset) \
    ((disk_files entries).toFinset ∩ found.toFinset)

/-- `Message.get` for one header key. -/
def lookupHeader (k : String) (hs : List (String × String)) : Option String :=
  (hs.find? (fun h => h.1 == k)).map (fun h => h.2)

/-- `report_missing target strict use_tap` over the project model: open and
parse PKG-INFO (`FileNotFoundError` when absent), bail out when the `Name`
header is missing, attempt the extra-metadata parse catching only
`ParseException`, compute found and extra files per category (`os.listdir`
of a missing source-package directory propagates `FileNotFoundError`, while
for `tests` it is caught and treated as an empty listing), then either exit
with the TAP plan and the missing count or return the found lists.  The
`strict` argument is accepted but never consulted by the source. -/
def report_missing (spdxOk : String → Bool)
    (root_files source_files test_files : List String)
    (p : Project) (strict use_tap : Bool) : Except String ReportOut :=
  match p.pkg_info with
  | none => Except.error "FileNotFoundError: PKG-INFO"
  | some headers =>
    match lookupHeader "Name" headers with
    | none => Except.ok ReportOut.bailOut
    | some name =>
      let extraE : Except String (List String) :=
        match pkg_info_extra spdxOk p.payload true with
        | Except.ok (Sum.inr msgs) => Except.ok msgs
        | Except.ok (Sum.inl _) => Except.ok []
        | Except.error e =>
          if e == "ParseException" then Except.ok [] else Except.error e
      match extraE with
      | Except.error e => Except.error e
      | Except.ok extra_pkg_info =>
        let fr := found_files root_files (some p.rootEntries)
        let er := extra_files p.rootEntries fr
        let fsrc := found_files source_files p.sourceEntries
        match p.sourceEntries with
        | none => Except.error "FileNotFoundError: source package directory"
        | some srcEntries =>
          let es := extra_files srcEntries fsrc
          let ftst := found_files test_files p.testEntries
          let et := extra_files (p.testEntries.getD []) ftst
          let miss := (root_files.length - fr.length) +
            (source_files.length - fsrc.length) +
            (test_files.length - ftst.length)
          if use_tap then
            let plan := 1 + headers.length + extra_pkg_info.length +
              root_files.length + source_files.length + test_files.length +
              er.card + es.card + et.card + miss
            Except.ok (ReportOut.tapPlan plan miss)
          else
            Except.ok (ReportOut.result name fr fsrc ftst)

theorem RewriteCommand._body_eq (c : RewriteCommand) (mode kind : String) :
    RewriteCommand._body c mode kind =
      if c.target = mode ++ "_" ++ kind ∨ c.target = "" then
        ({ c with active := true, target := mode ++ "_" ++ kind },
          Except.ok { c with active := true, target := mode ++ "_" ++ kind })
      else
        ({ c with active := true },
          Except.error ("target already set to " ++ c.target)) := rfl

/-- The state of a builder after a successful `add`/`rem` with operation tag
`op` binding target `tgt`. -/
def RewriteCommand.bound (c : RewriteCommand) (source op tgt : String) :
    RewriteCommand :=
  { active := true, type := c.type, target := tgt, operation := op,
    sources := c.sources ++ [source], subdir := c.subdir,
    target_type := c.target_type }

/-- The state of a builder after a failed `add`/`rem` with operation tag
`op`: mutated but with the original target. -/
def RewriteCommand.unbound (c : RewriteCommand) (source op : String) :
    RewriteCommand :=
  { active := true, type := c.type, target := c.target, operation := op,
    sources := c.sources ++ [source], subdir := c.subdir,
    target_type := c.target_type }

theorem RewriteCommand.add_eq (c : RewriteCommand) (mode kind source : String) :
    c.add mode kind source =
      if c.target = mode ++ "_" ++ kind ∨ c.target = "" then
        (c.bound source "src_add" (mode ++ "_" ++ kind),
          Except.ok (c.bound source "src_add" (mode ++ "_" ++ kind)))
      else
        (c.unbound source "src_add",
          Except.error ("target already set to " ++ c.target)) := rfl

theorem RewriteCommand.rem_eq (c : RewriteCommand) (mode kind source : String) :
    c.rem mode kind source =
      if c.target = mode ++ "_" ++ kind ∨ c.target = "" then
        (c.bound source "src_rem" (mode ++ "_" ++ kind),
          Except.ok (c.bound source "src_rem" (mode ++ "_" ++ kind)))
      else
        (c.unbound source "src_rem",
          Except.error ("target already set to " ++ c.target)) := rfl

/-- Claim C2: a `RewriteCommand` whose target is bound to `t` rejects a
subsequent `add` or `rem` that would bind a different identifier with a
`ValueError`, accepts the same identifier leaving the target unchanged, and
an instance with an empty target accepts any first binding. -/
theorem rewrite_command_single_target (c : RewriteCommand)
    (mode kind source : String) :
    (c.target ≠ "" → c.target ≠ mode ++ "_" ++ kind →
      (∃ e, (c.add mode kind source).2 = Except.error e) ∧
      (∃ e, (c.rem mode kind source).2 = Except.error e)) ∧
    (c.target = mode ++ "_" ++ kind →
      (∃ x, (c.add mode kind source).2 = Except.ok x) ∧
      (c.add mode kind source).1.target = c.target ∧
      (∃ x, (c.rem mode kind source).2 = Except.ok x) ∧
      (c.rem mode kind source).1.target = c.target) ∧
    (c.target = "" →
      (∃ x, (c.add mode kind source).2 = Except.ok x) ∧
      (c.add mode kind source).1.target = mode ++ "_" ++ kind ∧
      (∃ x, (c.rem mode kind source).2 = Except.ok x) ∧
      (c.rem mode kind source).1.target = mode ++ "_" ++ kind) := by
  refine ⟨fun h1 h2 => ?_, fun h => ?_, fun h => ?_⟩
  · rw [RewriteCommand.add_eq, RewriteCommand.rem_eq, if_neg, if_neg]
    · exact ⟨⟨_, rfl⟩, ⟨_, rfl⟩⟩
    · rintro (h | h) <;> [exact h2 h; exact h1 h]
    · rintro (h | h) <;> [exact h2 h; exact h1 h]
  · rw [RewriteCommand.add_eq, RewriteCommand.rem_eq, if_pos (Or.inl h),
      if_pos (Or.inl h)]
    exact ⟨⟨_, rfl⟩, by simp [RewriteCommand.bound, h], ⟨_, rfl⟩,
      by simp [RewriteCommand.bound, h]⟩
  · rw [RewriteCommand.add_eq, RewriteCommand.rem_eq, if_pos (Or.inr h),
      if_pos (Or.inr h)]
    exact ⟨⟨_, rfl⟩, rfl, ⟨_, rfl⟩, rfl⟩

/-- Witness for C2: a builder bound to `source_files` rejects
`source_children`, accepts `source_files` again, and a fresh builder accepts
a first binding. -/
theorem rewrite_command_single_target_witness :
    (∃ e, (RewriteCommand.add
      { target := "source_files" } "source" "children" "y").2
        = Except.error e) ∧
    (RewriteCommand.add
      { target := "source_files" } "source" "files" "y").1.target
        = "source_files" ∧
    (RewriteCommand.add { } "source" "files" "y").1.target = "source_files" :=
  ⟨(rewrite_command_single_target { target := "source_files" }
      "source" "children" "y").1 (by decide) (by decide) |>.1.imp
        (fun e he => he),
    ((rewrite_command_single_target { target := "source_files" }
      "source" "files" "y").2.1 (by decide)).2.1,
    ((rewrite_command_single_target { } "source" "files" "y").2.2
      (by decide)).2.1⟩

/-- Claim C9: a conflicting `add`/`rem` call is not atomic: when the
`ValueError` is raised the source has already been appended, the operation
tag overwritten and the instance marked active. -/
theorem rewrite_command_conflict_not_atomic (c : RewriteCommand)
    (mode kind source : String) (h1 : c.target ≠ "")
    (h2 : c.target ≠ mode ++ "_" ++ kind) :
    (∃ e, (c.add mode kind source).2 = Except.error e) ∧
    (c.add mode kind source).1.sources = c.sources ++ [source] ∧
    (c.add mode kind source).1.operation = "src_add" ∧
    (c.add mode kind source).1.active = true ∧
    (∃ e, (c.rem mode kind source).2 = Except.error e) ∧
    (c.rem mode kind source).1.sources = c.sources ++ [source] ∧
    (c.rem mode kind source).1.operation = "src_rem" ∧
    (c.rem mode kind source).1.active = true := by
  rw [RewriteCommand.add_eq, RewriteCommand.rem_eq, if_neg, if_neg]
  · exact ⟨⟨_, rfl⟩, rfl, rfl, rfl, ⟨_, rfl⟩, rfl, rfl, rfl⟩
  · rintro (h | h) <;> [exact h2 h; exact h1 h]
  · rintro (h | h) <;> [exact h2 h; exact h1 h]

/-- Witness for C9 at a concrete conflicting call. -/
theorem rewrite_command_conflict_not_atomic_witness :
    (∃ e, (RewriteCommand.add
      { target := "source_files", sources := ["x"] }
        "source" "children" "y").2 = Except.error e) ∧
    (RewriteCommand.add { target := "source_files", sources := ["x"] }
      "source" "children" "y").1.sources = ["x"] ++ ["y"] ∧
    (RewriteCommand.add { target := "source_files", sources := ["x"] }
      "source" "children" "y").1.operation = "src_add" ∧
    (RewriteCommand.add { target := "source_files", sources := ["x"] }
      "source" "children" "y").1.active = true :=
  have h := rewrite_command_conflict_not_atomic
    { target := "source_files", sources := ["x"] } "source" "children" "y"
    (by decide) (by decide)
  ⟨h.1, h.2.1, h.2.2.1, h.2.2.2.1⟩

/-- Claim C4 (code evaluation at the failing input): removing an empty
directory in the `source` category (`t/n/foo` under target `t`, package
`n`) removes the directory but appends no command at all — the `rmdir`
succeeds before the `is_dir` routing check, which then sees nothing — while
the claim expects a `children` remove command to be emitted. -/
theorem isub_source_empty_dir_emits_nothing :
    Rewriter.isub ⟨"t", "n", "source", []⟩ ⟨["t/n/foo"], [], []⟩ ["foo"] =
      Except.ok (⟨[], [], []⟩, ⟨"t", "n", "source", []⟩, []) := by decide

/-- Claim C8 (code evaluation at the failing input): adding a path that
resolves to an existing directory raises `FileExistsError`, because
`Path.mkdir` is called without `exist_ok` on a path that `is_dir` just
reported as existing; no command is emitted and no stub is written. -/
theorem iadd_existing_dir_raises :
    Rewriter.iadd ⟨"t", "n", "source", []⟩ ⟨["t/n/foo"], [], []⟩ ["foo"] =
      Except.error "FileExistsError" := by decide

/-- Claim C6: extracting the license metadata from a payload carrying
`License-Expression :: MIT` and `License-File :: LICENSE` yields the mapping
with exactly those two pairs, and re-parsing the payload re-built from that
serialized mapping yields the same mapping again. -/
theorem pkg_info_extra_mit_roundtrip (spdxOk : String → Bool)
    (h : spdxOk "MIT" = true) :
    pkg_info_extra spdxOk
      ⟨true, [⟨PepKey.licenseExpression, "MIT"⟩, ⟨PepKey.licenseFile, "LICENSE"⟩]⟩
      false =
      Except.ok (Sum.inl
        [("License-Expression", "MIT"), ("License-File", "LICENSE")]) ∧
    pkg_info_extra spdxOk
      (reparse_payload
        [("License-Expression", "MIT"), ("License-File", "LICENSE")]) false =
      Except.ok (Sum.inl
        [("License-Expression", "MIT"), ("License-File", "LICENSE")]) := by
  constructor <;>
    simp [pkg_info_extra, pep639_parse, _str_dict_union, dictUnion, entryOk,
      reparse_payload, entryOfPair, PepKey.str, h]

/-- Witness for C6 with a concrete SPDX acceptor. -/
theorem pkg_info_extra_mit_roundtrip_witness :
    pkg_info_extra (fun s => s == "MIT")
      ⟨true, [⟨PepKey.licenseExpression, "MIT"⟩, ⟨PepKey.licenseFile, "LICENSE"⟩]⟩
      false =
      Except.ok (Sum.inl
        [("License-Expression", "MIT"), ("License-File", "LICENSE")]) ∧
    pkg_info_extra (fun s => s == "MIT")
      (reparse_payload
        [("License-Expression", "MIT"), ("License-File", "LICENSE")]) false =
      Except.ok (Sum.inl
        [("License-Expression", "MIT"), ("License-File", "LICENSE")]) :=
  pkg_info_extra_mit_roundtrip (fun s => s == "MIT") (by decide)

/-- Counterexample to C7 as stated: with three `License-File` classifier
lines valued `LICENSE`, `LICENSE.txt`, `LICENSE`, the parse maps the key to
`LICENSE.txt` — the second occurrence — not to the value `LICENSE` of the
last occurrence, because the parse-time union only merges `toks[0] | toks[1]`. -/
theorem pkg_info_extra_last_occurrence_refuted :
    pkg_info_extra (fun _ => false)
      ⟨true, [⟨PepKey.licenseFile, "LICENSE"⟩, ⟨PepKey.licenseFile, "LICENSE.txt"⟩,
        ⟨PepKey.licenseFile, "LICENSE"⟩]⟩ false =
      Except.ok (Sum.inl [("License-File", "LICENSE.txt")]) ∧
    pkg_info_extra (fun _ => false)
      ⟨true, [⟨PepKey.licenseFile, "LICENSE"⟩, ⟨PepKey.licenseFile, "LICENSE.txt"⟩,
        ⟨PepKey.licenseFile, "LICENSE"⟩]⟩ false ≠
      Except.ok (Sum.inl [("License-File", "LICENSE")]) := by decide

/-- Claim C7 as amended: the mapping returned by `pkg_info_extra` is the
union of the singleton dicts of only the first two classifier lines, the
second overriding the first, so a key recurring in the first two lines maps
to the second value and any line after the second is discarded. -/
theorem pkg_info_extra_union_first_two (spdxOk : String → Bool)
    (e0 e1 : PepEntry) (rest : List PepEntry)
    (h : (e0 :: e1 :: rest).all (entryOk spdxOk) = true) :
    pkg_info_extra spdxOk ⟨true, e0 :: e1 :: rest⟩ false =
      Except.ok (Sum.inl
        (dictUnion [(e0.key.str, e0.value)] [(e1.key.str, e1.value)])) ∧
    (e0.key = e1.key →
      pkg_info_extra spdxOk ⟨true, e0 :: e1 :: rest⟩ false =
        Except.ok (Sum.inl [(e0.key.str, e1.value)])) := by
  constructor
  · simp [pkg_info_extra, pep639_parse, h, _str_dict_union]
  · intro hk
    simp [pkg_info_extra, pep639_parse, h, _str_dict_union, dictUnion, hk]

/-- Witness for the amended C7 at three concrete classifier lines. -/
theorem pkg_info_extra_union_first_two_witness :
    pkg_info_extra (fun _ => false)
      ⟨true, [⟨PepKey.licenseFile, "LICENSE"⟩, ⟨PepKey.licenseFile, "LICENSE.txt"⟩,
        ⟨PepKey.licenseFile, "LICENSE"⟩]⟩ false =
      Except.ok (Sum.inl
        (dictUnion [("License-File", "LICENSE")]
          [("License-File", "LICENSE.txt")])) :=
  (pkg_info_extra_union_first_two (fun _ => false)
    ⟨PepKey.licenseFile, "LICENSE"⟩ ⟨PepKey.licenseFile, "LICENSE.txt"⟩
    [⟨PepKey.licenseFile, "LICENSE"⟩] (by decide)).1

/-- Claim C5 (code evaluation): `report_missing` never consults `strict` —
the result with `strict = true` is identical to the result with
`strict = false` for every input — and on a project missing the required
root file `README` with `strict = true` it still returns a normal result in
which `README` is absent from the found list, instead of failing. -/
theorem report_missing_ignores_strict :
    (∀ (spdxOk : String → Bool) (rf sf tf : List String) (p : Project)
      (ut : Bool),
      report_missing spdxOk rf sf tf p true ut =
        report_missing spdxOk rf sf tf p false ut) ∧
    report_missing (fun _ => false) ["README"] [] []
      ⟨some [("Name", "nm")], ⟨false, []⟩, [], some [], some []⟩ true false =
      Except.ok (ReportOut.result "nm" [] [] []) :=
  ⟨fun _ _ _ _ _ _ => rfl, by decide⟩

theorem list_perm_any_eq {α : Type _} (p : α → Bool) {l1 l2 : List α}
    (h : l1.Perm l2) : l1.any p = l2.any p := by
  induction h with
  | nil => rfl
  | cons x _ ih => simp [ih]
  | swap x y l => cases hx : p x <;> cases hy : p y <;> simp [hx, hy]
  | trans _ _ ih1 ih2 => rw [ih1, ih2]

/-- Claim C3: the per-category `extra` set computed by `report_missing` is
the symmetric difference, in the union-minus-intersection sense of the spec, of
the on-disk regular files and the schema files found on disk; it is stable
under re-listing the unchanged directory in any order; and a missing base
directory gives an empty on-disk set — caught for the test category (the
reconciliation still returns a result) while for the source category the
listing error propagates. -/
theorem report_missing_extra_spec :
    (∀ (entries : List (String × Bool)) (found : List String),
      extra_files entries found = specExtra entries found) ∧
    (∀ (e1 e2 : List (String × Bool)) (expected : List String),
      e1.Perm e2 →
      found_files expected (some e1) = found_files expected (some e2) ∧
      extra_files e1 (found_files expected (some e1)) =
        extra_files e2 (found_files expected (some e2))) ∧
    (∀ found : List String, extra_files [] found = found.toFinset) ∧
    report_missing (fun _ => false) [] [] ["tf"]
      ⟨some [("Name", "nm")], ⟨false, []⟩, [], some [], none⟩ false false =
      Except.ok (ReportOut.result "nm" [] [] []) ∧
    report_missing (fun _ => false) [] [] []
      ⟨some [("Name", "nm")], ⟨false, []⟩, [], none, some []⟩ false false =
      Except.error "FileNotFoundError: source package directory" := by
  refine ⟨?_, ?_, ?_, by decide, by decide⟩
  · intro entries found
    rw [extra_files, specExtra, symmDiff_eq_sup_sdiff_inf]
    simp
  · intro e1 e2 expected h
    have hf : found_files expected (some e1) =
        found_files expected (some e2) := by
      unfold found_files
      exact List.filter_congr (fun f _ => list_perm_any_eq _ h)
    refine ⟨hf, ?_⟩
    rw [hf, extra_files, extra_files]
    congr 1
    exact List.toFinset_eq_of_perm _ _ ((h.filter _).map _)
  · intro found
    simp [extra_files, disk_files, bot_symmDiff]

/-- Witness for C3: two listings of the same directory in different orders
yield the same found list and the same extra set. -/
theorem report_missing_extra_spec_witness :
    found_files ["a"] (some [("a", true), ("b", false)]) =
      found_files ["a"] (some [("b", false), ("a", true)]) ∧
    extra_files [("a", true), ("b", false)]
        (found_files ["a"] (some [("a", true), ("b", false)])) =
      extra_files [("b", false), ("a", true)]
        (found_files ["a"] (some [("b", false), ("a", true)])) :=
  report_missing_extra_spec.2.1 [("a", true), ("b", false)]
    [("b", false), ("a", true)] ["a"] (by decide)

theorem RewriteCommand.add_pair_ok {c c1 x : RewriteCommand}
    {mode kind source : String}
    (h : c.add mode kind source = (c1, Except.ok x)) :
    c1 = c.bound source "src_add" (mode ++ "_" ++ kind) := by
  rw [RewriteCommand.add_eq] at h
  split at h
  · injection h with h1 h2
    exact h1.symm
  · injection h with h1 h2
    exact Except.noConfusion h2

theorem RewriteCommand.rem_pair_ok {c c1 x : RewriteCommand}
    {mode kind source : String}
    (h : c.rem mode kind source = (c1, Except.ok x)) :
    c1 = c.bound source "src_rem" (mode ++ "_" ++ kind) := by
  rw [RewriteCommand.rem_eq] at h
  split at h
  · injection h with h1 h2
    exact h1.symm
  · injection h with h1 h2
    exact Except.noConfusion h2

/-- Within one batcher call the files builder, when active, carries the
`files`-kind target. -/
def filesInv (fix : String) (c : RewriteCommand) : Prop :=
  c.active = true → c.target = fix ++ "_" ++ "files"

/-- Within one batcher call the children builder, when active, carries the
`children`-kind target. -/
def childrenInv (fix : String) (c : RewriteCommand) : Prop :=
  c.active = true → c.target = fix ++ "_" ++ "children"

theorem iaddStep_inv {r : Rewriter} {fs : FS} {cf cc : RewriteCommand}
    {file : String} {fs1 : FS} {cf1 cc1 : RewriteCommand}
    (h : r.iaddStep fs cf cc file = Except.ok (fs1, cf1, cc1))
    (hf : filesInv r.fix cf) (hc : childrenInv r.fix cc) :
    filesInv r.fix cf1 ∧ childrenInv r.fix cc1 := by
  simp only [Rewriter.iaddStep] at h
  split at h
  · split at h
    · exact Except.noConfusion h
    · split at h
      · rename_i heq
        simp only [Except.ok.injEq, Prod.mk.injEq] at h
        obtain ⟨-, rfl, rfl⟩ := h
        refine ⟨hf, fun _ => ?_⟩
        rw [RewriteCommand.add_pair_ok heq]
        rfl
      · exact Except.noConfusion h
  · split at h
    · split at h
      · rename_i heq
        simp only [Except.ok.injEq, Prod.mk.injEq] at h
        obtain ⟨-, rfl, rfl⟩ := h
        refine ⟨fun _ => ?_, hc⟩
        rw [RewriteCommand.add_pair_ok heq]
        rfl
      · exact Except.noConfusion h
    · simp only [Except.ok.injEq, Prod.mk.injEq] at h
      obtain ⟨-, rfl, rfl⟩ := h
      exact ⟨hf, hc⟩

theorem iaddLoop_inv (r : Rewriter) (other : List String) :
    ∀ (fs : FS) (cf cc : RewriteCommand) (fs1 : FS) (cf1 cc1 : RewriteCommand),
      r.iaddLoop other fs cf cc = Except.ok (fs1, cf1, cc1) →
      filesInv r.fix cf → childrenInv r.fix cc →
      filesInv r.fix cf1 ∧ childrenInv r.fix cc1 := by
  induction other with
  | nil =>
    intro fs cf cc fs1 cf1 cc1 h hf hc
    simp only [Rewriter.iaddLoop, Except.ok.injEq, Prod.mk.injEq] at h
    obtain ⟨-, rfl, rfl⟩ := h
    exact ⟨hf, hc⟩
  | cons f rest ih =>
    intro fs cf cc fs1 cf1 cc1 h hf hc
    simp only [Rewriter.iaddLoop] at h
    split at h
    · rename_i fs2 cf2 cc2 heq
      obtain ⟨hf2, hc2⟩ := iaddStep_inv heq hf hc
      exact ih fs2 cf2 cc2 fs1 cf1 cc1 h hf2 hc2
    · exact Except.noConfusion h

theorem isubRoute_inv {r : Rewriter} {cf cc : RewriteCommand} {file : String}
    {fs : FS} {child : String} {warns : List String} {fs1 : FS}
    {cf1 cc1 : RewriteCommand} {warns1 : List String}
    (h : r.isubRoute cf cc file fs child warns
      = Except.ok (fs1, cf1, cc1, warns1))
    (hf : filesInv r.fix cf) (hc : childrenInv r.fix cc) :
    filesInv r.fix cf1 ∧ childrenInv r.fix cc1 := by
  simp only [Rewriter.isubRoute] at h
  split at h
  · split at h
    · rename_i heq
      simp only [Except.ok.injEq, Prod.mk.injEq] at h
      obtain ⟨-, rfl, rfl, -⟩ := h
      refine ⟨hf, fun _ => ?_⟩
      rw [RewriteCommand.rem_pair_ok heq]
      rfl
    · exact Except.noConfusion h
  · split at h
    · split at h
      · rename_i heq
        simp only [Except.ok.injEq, Prod.mk.injEq] at h
        obtain ⟨-, rfl, rfl, -⟩ := h
        refine ⟨fun _ => ?_, hc⟩
        rw [RewriteCommand.rem_pair_ok heq]
        rfl
      · exact Except.noConfusion h
    · simp only [Except.ok.injEq, Prod.mk.injEq] at h
      obtain ⟨-, rfl, rfl, -⟩ := h
      exact ⟨hf, hc⟩

theorem isubStep_inv {r : Rewriter} {fs : FS} {cf cc : RewriteCommand}
    {warns : List String} {file : String} {fs1 : FS}
    {cf1 cc1 : RewriteCommand} {warns1 : List String}
    (h : r.isubStep fs cf cc warns file = Except.ok (fs1, cf1, cc1, warns1))
    (hf : filesInv r.fix cf) (hc : childrenInv r.fix cc) :
    filesInv r.fix cf1 ∧ childrenInv r.fix cc1 := by
  simp only [Rewriter.isubStep] at h
  split at h
  · split at h <;> exact isubRoute_inv h hf hc
  · split at h
    · split at h <;> exact isubRoute_inv h hf hc
    · exact isubRoute_inv h hf hc

theorem isubLoop_inv (r : Rewriter) (other : List String) :
    ∀ (fs : FS) (cf cc : RewriteCommand) (warns : List String) (fs1 : FS)
      (cf1 cc1 : RewriteCommand) (warns1 : List String),
      r.isubLoop other fs cf cc warns = Except.ok (fs1, cf1, cc1, warns1) →
      filesInv r.fix cf → childrenInv r.fix cc →
      filesInv r.fix cf1 ∧ childrenInv r.fix cc1 := by
  induction other with
  | nil =>
    intro fs cf cc warns fs1 cf1 cc1 warns1 h hf hc
    simp only [Rewriter.isubLoop, Except.ok.injEq, Prod.mk.injEq] at h
    obtain ⟨-, rfl, rfl, -⟩ := h
    exact ⟨hf, hc⟩
  | cons f rest ih =>
    intro fs cf cc warns fs1 cf1 cc1 warns1 h hf hc
    simp only [Rewriter.isubLoop] at h
    split at h
    · rename_i fs2 cf2 cc2 warns2 heq
      obtain ⟨hf2, hc2⟩ := isubStep_inv heq hf hc
      exact ih fs2 cf2 cc2 warns2 fs1 cf1 cc1 warns1 h hf2 hc2
    · exact Except.noConfusion h

/-- Shape of the block of command records appended by one batcher call: at
most two records, at most one with the `files`-kind target and at most one
with the `children`-kind target, files first whenever both appear. -/
def AppendedShape (fix : String) (l : List CmdRecord) : Prop :=
  l = [] ∨
  (∃ c, l = [c] ∧
    (c.target = fix ++ "_" ++ "files" ∨ c.target = fix ++ "_" ++ "children")) ∨
  (∃ c d, l = [c, d] ∧ c.target = fix ++ "_" ++ "files" ∧
    d.target = fix ++ "_" ++ "children")

/-- Claim C1: one call to the batcher add (`__iadd__`) or remove
(`__isub__`) operation appends at most two command records — at most one
`files`-kind and at most one `children`-kind — whatever the length of the
path list, and when both appear the files command precedes the children
command. -/
theorem batcher_appends_at_most_two (r : Rewriter) (fs : FS)
    (other : List String) :
    (∀ fs1 r1, r.iadd fs other = Except.ok (fs1, r1) →
      ∃ l, r1.commands = r.commands ++ l ∧ AppendedShape r.fix l) ∧
    (∀ fs1 r1 warns, r.isub fs other = Except.ok (fs1, r1, warns) →
      ∃ l, r1.commands = r.commands ++ l ∧ AppendedShape r.fix l) := by
  constructor
  · intro fs1 r1 h
    unfold Rewriter.iadd at h
    split at h
    · exact Except.noConfusion h
    · rename_i fs2 cf cc heq
      obtain ⟨hf, hc⟩ := iaddLoop_inv r other fs {} {} fs2 cf cc heq
        (fun hx => absurd hx (by decide)) (fun hx => absurd hx (by decide))
      simp only [Except.ok.injEq, Prod.mk.injEq] at h
      obtain ⟨-, rfl⟩ := h
      refine ⟨_, rfl, ?_⟩
      cases hcf : cf.active <;> cases hcc : cc.active <;>
        simp only [hcf, hcc, if_true, if_false, List.nil_append,
          List.append_nil, AppendedShape]
      · exact Or.inl rfl
      · exact Or.inr (Or.inl ⟨cc.toRecord, rfl, Or.inr (hc hcc)⟩)
      · exact Or.inr (Or.inl ⟨cf.toRecord, rfl, Or.inl (hf hcf)⟩)
      · exact Or.inr (Or.inr ⟨cf.toRecord, cc.toRecord, rfl, hf hcf, hc hcc⟩)
  · intro fs1 r1 warns h
    unfold Rewriter.isub at h
    split at h
    · exact Except.noConfusion h
    · rename_i fs2 cf cc warns2 heq
      obtain ⟨hf, hc⟩ := isubLoop_inv r other fs {} {} [] fs2 cf cc warns2 heq
        (fun hx => absurd hx (by decide)) (fun hx => absurd hx (by decide))
      simp only [Except.ok.injEq, Prod.mk.injEq] at h
      obtain ⟨-, rfl, -⟩ := h
      refine ⟨_, rfl, ?_⟩
      cases hcf : cf.active <;> cases hcc : cc.active <;>
        simp only [hcf, hcc, if_true, if_false, List.nil_append,
          List.append_nil, AppendedShape]
      · exact Or.inl rfl
      · exact Or.inr (Or.inl ⟨cc.toRecord, rfl, Or.inr (hc hcc)⟩)
      · exact Or.inr (Or.inl ⟨cf.toRecord, rfl, Or.inl (hf hcf)⟩)
      · exact Or.inr (Or.inr ⟨cf.toRecord, cc.toRecord, rfl, hf hcf, hc hcc⟩)

/-- Witness for C1: a concrete add of one plain file appends exactly one
`files`-kind record. -/
theorem batcher_appends_at_most_two_witness :
    ∃ l, ({ target := "t", name := "n", fix := "source", commands :=
        [⟨"target", "source_files", "src_add", ["a.py"], "", ""⟩] } :
          Rewriter).commands
      = ([] : List CmdRecord) ++ l ∧ AppendedShape "source" l :=
  (batcher_appends_at_most_two ⟨"t", "n", "source", []⟩ ⟨[], ["t/n/a.py"], []⟩
    ["a.py"]).1 ⟨[], ["t/n/a.py"], []⟩
    ⟨"t", "n", "source", [⟨"target", "source_files", "src_add", ["a.py"], "", ""⟩]⟩
    (by decide)

theorem FS.rmdir_ok {fs fs2 : FS} {p : String}
    (h : fs.rmdir p = Except.ok fs2) :
    fs2 = { fs with dirs := fs.dirs.filter (fun q => decide (q ≠ p)) } := by
  unfold FS.rmdir at h
  split at h
  · exact (Except.ok.inj h).symm
  · exact Except.noConfusion h

theorem FS.rmdir_ok_isDir {fs fs2 : FS} {p q : String}
    (h : fs.rmdir p = Except.ok fs2) (hq : q ≠ p) :
    fs2.isDir q = fs.isDir q := by
  rw [FS.rmdir_ok h]
  simp [FS.isDir, List.mem_filter, hq]

theorem FS.rmdir_ok_removed {fs fs2 : FS} {p : String}
    (h : fs.rmdir p = Except.ok fs2) : fs2.isDir p = false := by
  rw [FS.rmdir_ok h]
  simp [FS.isDir, List.mem_filter]

theorem FS.rmdir_empty_dir_ok (fs : FS) (p : String) (h1 : fs.isDir p = true)
    (h2 : p ∉ fs.withEntries) : ∃ fs2, fs.rmdir p = Except.ok fs2 := by
  unfold FS.rmdir
  rw [if_pos]
  · exact ⟨_, rfl⟩
  · simp [h1, h2]

/-- Claim C10: for a remove request in the `test` category the `rmdir`
attempt is made at `target/name/file` (the source-package location) while
the files-versus-children routing of the same iteration resolves
`target/tests/file`; hence the directory under `tests/` always survives the
operation — even when empty — although a `children` command referencing its
build stub is emitted, and an empty directory at the source-package location
is the one that gets removed. -/
theorem isub_test_rmdir_uses_source_path (t n f : String)
    (cmds : List CmdRecord) (fs : FS)
    (hne : pjoin (pjoin t "tests") f ≠ pjoin (pjoin t n) f)
    (hdir : fs.isDir (pjoin (pjoin t "tests") f) = true) :
    ∃ fs1 warns,
      Rewriter.isub ⟨t, n, "test", cmds⟩ fs [f] = Except.ok (fs1,
        ⟨t, n, "test", cmds ++ [⟨"target", "test" ++ "_" ++ "children",
          "src_rem", [pjoin (pjoin (pjoin t "tests") f) "meson.build"],
          "", ""⟩]⟩, warns) ∧
      fs1.isDir (pjoin (pjoin t "tests") f) = true ∧
      (fs.isDir (pjoin (pjoin t n) f) = true →
        pjoin (pjoin t n) f ∉ fs.withEntries →
        fs1.isDir (pjoin (pjoin t n) f) = false) := by
  have hroute : ∀ (fs' : FS) (w : List String),
      fs'.isDir (pjoin (pjoin t "tests") f) = true →
      Rewriter.isubRoute ⟨t, n, "test", cmds⟩ {} {} f fs'
          (pjoin (pjoin t "tests") f) w =
        Except.ok (fs', {},
          RewriteCommand.bound {}
            (pjoin (pjoin (pjoin t "tests") f) "meson.build") "src_rem"
            ("test" ++ "_" ++ "children"), w) := by
    intro fs' w hd
    unfold Rewriter.isubRoute
    simp only [hd, if_true, eq_self_iff_true, ite_true]
    rw [RewriteCommand.rem_eq, if_pos (Or.inr rfl)]
  cases hrm : fs.rmdir (pjoin (pjoin t n) f) with
  | ok fs2 =>
    have hd2 : fs2.isDir (pjoin (pjoin t "tests") f) = true := by
      rw [FS.rmdir_ok_isDir hrm hne]
      exact hdir
    have hstep : Rewriter.isubStep ⟨t, n, "test", cmds⟩ fs {} {} [] f =
        Except.ok (fs2, {},
          RewriteCommand.bound {}
            (pjoin (pjoin (pjoin t "tests") f) "meson.build") "src_rem"
            ("test" ++ "_" ++ "children"), []) := by
      unfold Rewriter.isubStep
      rw [if_neg (by simp), if_pos (by rfl)]
      rw [hrm]
      exact hroute fs2 [] hd2
    refine ⟨fs2, [], ?_, hd2, fun _ _ => FS.rmdir_ok_removed hrm⟩
    unfold Rewriter.isub Rewriter.isubLoop
    rw [hstep]
    rfl
  | error e =>
    have hstep : Rewriter.isubStep ⟨t, n, "test", cmds⟩ fs {} {} [] f =
        Except.ok (fs, {},
          RewriteCommand.bound {}
            (pjoin (pjoin (pjoin t "tests") f) "meson.build") "src_rem"
            ("test" ++ "_" ++ "children"),
          ["not ok - Could not remove non-empty test directory."]) := by
      unfold Rewriter.isubStep
      rw [if_neg (by simp), if_pos (by rfl)]
      rw [hrm]
      exact hroute fs ["not ok - Could not remove non-empty test directory."]
        hdir
    refine ⟨fs, ["not ok - Could not remove non-empty test directory."],
      ?_, hdir, fun h1 h2 => ?_⟩
    · unfold Rewriter.isub Rewriter.isubLoop
      rw [hstep]
      rfl
    · obtain ⟨fs2, hok⟩ := FS.rmdir_empty_dir_ok fs (pjoin (pjoin t n) f) h1 h2
      rw [hok] at hrm
      exact Except.noConfusion hrm

/-- Witness for C10: concrete target with an empty directory both at
`t/tests/f` and at `t/n/f`; the removal is attempted (and succeeds) at
`t/n/f` while `t/tests/f` survives and the command references
`t/tests/f/meson.build`. -/
theorem isub_test_rmdir_uses_source_path_witness :
    ∃ fs1 warns,
      Rewriter.isub ⟨"t", "n", "test", []⟩
          ⟨["t/tests/f", "t/n/f"], [], []⟩ ["f"] = Except.ok (fs1,
        ⟨"t", "n", "test", [] ++ [⟨"target", "test" ++ "_" ++ "children",
          "src_rem", [pjoin (pjoin (pjoin "t" "tests") "f") "meson.build"],
          "", ""⟩]⟩, warns) ∧
      fs1.isDir (pjoin (pjoin "t" "tests") "f") = true ∧
      (FS.isDir ⟨["t/tests/f", "t/n/f"], [], []⟩ (pjoin (pjoin "t" "n") "f")
          = true →
        pjoin (pjoin "t" "n") "f" ∉
          FS.withEntries ⟨["t/tests/f", "t/n/f"], [], []⟩ →
        fs1.isDir (pjoin (pjoin "t" "n") "f") = false) :=
  isub_test_rmdir_uses_source_path "t" "n" "f" []
    ⟨["t/tests/f", "t/n/f"], [], []⟩ (by decide) (by decide)

end OziFix
